import Mathlib

/-!
Shallow embedding of the booking-analytics pipeline of
`backend/app/routers/analytics.py` (Train-booking-DA).

Rows of the denormalized join produced by `get_bookings_df` are modelled as a
`Row` structure; calendar dates are day numbers (`Int`); monetary amounts are
exact rationals (`ℚ`), matching the spec's "integer currency units surfaced as
floating point" under exact arithmetic.  pandas `groupby` sorts the distinct
keys ascending; `nlargest` is a stable descending sort followed by truncation;
both are modelled with an insertion sort (`insertionSort`), which is stable.
`Series.round(2)` is modelled as rounding to an integer number of hundredths.
-/

namespace TrainBooking

/-! ### Generic list machinery: stable insertion sort -/

def insertSorted (le : α → α → Bool) (a : α) : List α → List α
  | [] => [a]
  | b :: l => if le a b then a :: b :: l else b :: insertSorted le a l

def insertionSort (le : α → α → Bool) : List α → List α
  | [] => []
  | a :: l => insertSorted le a (insertionSort le l)

/-! ### Data model

One row of the denormalized SELECT in `get_bookings_df`, including the two
derived columns added afterwards (`route`, `passenger_name`, empty until the
enrichment step fills them). -/

structure Row where
  id : Nat
  booking_date : Int
  amount_paid : ℚ
  ticket_no : Nat
  seat_no : Nat
  origin_station : String
  destination_station : String
  class_name : String
  status : String
  first_name : String
  last_name : String
  email_address : String
  journey_name : String
  route : String := ""
  passenger_name : String := ""
deriving DecidableEq

/-- The literal separator string in the source line
`df['route'] = df['origin_station'] + ' â†’ ' + df['destination_station']`:
the file's bytes are U+00E2 U+2020 U+2019 (the UTF-8 encoding of "→"
mis-decoded as cp1252), not U+2192 "→". -/
def routeSep : String := " â†’ "

/-- The derived-field enrichment applied to every loaded row. -/
def enrichRow (r : Row) : Row :=
  { r with
    route := r.origin_station ++ routeSep ++ r.destination_station,
    passenger_name := r.first_name ++ " " ++ r.last_name }

/-- `get_date_range(days)`: `end_date = date.today()`, `start_date = end - days`. -/
def get_date_range (today : Int) (days : Int) : Int × Int := (today - days, today)

/-- The SQL `WHERE b.booking_date BETWEEN start AND end` predicate
(`BETWEEN` is inclusive at both endpoints). -/
def inRange (s e : Int) (r : Row) : Bool :=
  decide (s ≤ r.booking_date) && decide (r.booking_date ≤ e)

/-- `get_bookings_df(db, start_date, end_date)`.  `all` stands for the joined
row universe in the store; `today` for `date.today()`.  The Python guard is
`if not start_date or not end_date`, so when either bound is missing BOTH are
replaced by the trailing-30-day default.  The date filter is the inclusive
`BETWEEN`; enrichment adds `route` and `passenger_name` to every row. -/
def get_bookings_df (all : List Row) (today : Int) (s? e? : Option Int) : List Row :=
  let se : Int × Int :=
    match s?, e? with
    | some s, some e => (s, e)
    | _, _ => get_date_range today 30
  (all.filter (inRange se.1 se.2)).map enrichRow

/-! ### groupby / aggregation primitives -/

def strLe (a b : String) : Bool := decide (a ≤ b)

def intLe (a b : Int) : Bool := decide (a ≤ b)

/-- Lexicographic order on the 3-string grouping key of popular routes. -/
def key3Le (a b : String × String × String) : Bool :=
  if a.1 = b.1 then (if a.2.1 = b.2.1 then strLe a.2.2 b.2.2 else strLe a.2.1 b.2.1)
  else strLe a.1 b.1

/-- Lexicographic order on the 2-string grouping key of top spenders. -/
def key2Le (a b : String × String) : Bool :=
  if a.1 = b.1 then strLe a.2 b.2 else strLe a.1 b.1

/-- The distinct values of `key` over `df`, sorted ascending — the group keys
produced by pandas `groupby` (which sorts keys by default). -/
def groupKeys [DecidableEq κ] (le : κ → κ → Bool) (key : Row → κ) (df : List Row) : List κ :=
  insertionSort le ((df.map key).dedup)

/-- The rows of `df` falling in the group with key `k`. -/
def group [DecidableEq κ] (key : Row → κ) (k : κ) (df : List Row) : List Row :=
  df.filter (fun r => key r = k)

/-- Sum of `amount_paid` over a row list (pandas `['amount_paid'].sum()`). -/
def revenueOf (g : List Row) : ℚ := (g.map Row.amount_paid).sum

/-- `Series.value_counts()`: counts of the distinct values, sorted descending
by count (rendered into a `dict` by the caller, so tie order is immaterial). -/
def value_counts (vals : List String) : List (String × Nat) :=
  insertionSort (fun a b => decide (b.2 ≤ a.2))
    (vals.dedup.map (fun v => (v, (vals.filter (fun x => x = v)).length)))

/-- `x.round(2)` on a percentage series, modelled over ℚ: round to an integer
number of hundredths. -/
def round2 (q : ℚ) : ℚ := ((round (q * 100) : ℤ) : ℚ) / 100

/-! ### Response records (from `schemas.py`) -/

structure BookingStatsResponse where
  total_bookings : Nat
  total_revenue : ℚ
  average_booking_value : ℚ
  bookings_by_status : List (String × Nat)
  bookings_by_class : List (String × Nat)
deriving DecidableEq

structure PopularRouteResponse where
  origin : String
  destination : String
  booking_count : Nat
  total_revenue : ℚ
  average_price : ℚ
deriving DecidableEq

structure DailyBookingTrendResponse where
  date : Int
  booking_count : Nat
  revenue : ℚ
deriving DecidableEq

structure ClassDistributionResponse where
  class_name : String
  booking_count : Nat
  revenue : ℚ
  percentage : ℚ
deriving DecidableEq

structure RevenueStatsResponse where
  total_revenue : ℚ
  revenue_by_date : List (Int × ℚ)
  revenue_by_class : List (String × ℚ)
  revenue_by_route : List (String × ℚ)
deriving DecidableEq

structure TopSpenderEntry where
  name : String
  email : String
  total_bookings : Nat
  total_spent : ℚ
deriving DecidableEq

structure JourneyPerformanceEntry where
  journey_name : String
  total_bookings : Nat
  total_revenue : ℚ
  average_booking_value : ℚ
deriving DecidableEq

structure AnalyticsDashboardResponse where
  overview : BookingStatsResponse
  daily_trends : List DailyBookingTrendResponse
  popular_routes : List PopularRouteResponse
  class_distribution : List ClassDistributionResponse
deriving DecidableEq

/-! ### Aggregation views (each takes the enriched row set `df`) -/

/-- `get_booking_statistics` applied to its loaded DataFrame. -/
def get_booking_statistics (df : List Row) : BookingStatsResponse :=
  if df.isEmpty then
    { total_bookings := 0, total_revenue := 0, average_booking_value := 0,
      bookings_by_status := [], bookings_by_class := [] }
  else
    { total_bookings := df.length,
      total_revenue := revenueOf df,
      average_booking_value := revenueOf df / df.length,
      bookings_by_status := value_counts (df.map Row.status),
      bookings_by_class := value_counts (df.map Row.class_name) }

/-- `get_revenue_statistics` applied to its loaded DataFrame. -/
def get_revenue_statistics (df : List Row) : RevenueStatsResponse :=
  if df.isEmpty then
    { total_revenue := 0, revenue_by_date := [], revenue_by_class := [], revenue_by_route := [] }
  else
    { total_revenue := revenueOf df,
      revenue_by_date := (groupKeys intLe Row.booking_date df).map
        (fun d => (d, revenueOf (group Row.booking_date d df))),
      revenue_by_class := (groupKeys strLe Row.class_name df).map
        (fun c => (c, revenueOf (group Row.class_name c df))),
      revenue_by_route :=
        (insertionSort (fun a b => decide (b.2 ≤ a.2))
          ((groupKeys strLe Row.route df).map
            (fun rt => (rt, revenueOf (group Row.route rt df))))).take 10 }

/-- The grouping key `['origin_station', 'destination_station', 'route']` of
`get_popular_routes`. -/
def routeKey (r : Row) : String × String × String :=
  (r.origin_station, r.destination_station, r.route)

/-- One aggregated row of `route_stats` in `get_popular_routes`. -/
def route_stat (df : List Row) (k : String × String × String) : PopularRouteResponse :=
  { origin := k.1, destination := k.2.1,
    booking_count := (group routeKey k df).length,
    total_revenue := revenueOf (group routeKey k df),
    average_price := revenueOf (group routeKey k df) / (group routeKey k df).length }

/-- `get_popular_routes` applied to its loaded DataFrame: group by the route
key, aggregate count/sum/mean, `nlargest(limit, 'booking_count')`. -/
def get_popular_routes (df : List Row) (limit : Nat) : List PopularRouteResponse :=
  if df.isEmpty then []
  else
    (insertionSort (fun a b => decide (b.booking_count ≤ a.booking_count))
      ((groupKeys key3Le routeKey df).map (route_stat df))).take limit

/-- One aggregated row of `daily_stats` in `get_daily_booking_trends`. -/
def trend_stat (df : List Row) (d : Int) : DailyBookingTrendResponse :=
  { date := d,
    booking_count := (group Row.booking_date d df).length,
    revenue := revenueOf (group Row.booking_date d df) }

/-- The aggregation step of `get_daily_booking_trends`: group by booking date
(keys ascending), count and sum. -/
def get_daily_booking_trends (df : List Row) : List DailyBookingTrendResponse :=
  if df.isEmpty then []
  else (groupKeys intLe Row.booking_date df).map (trend_stat df)

/-- One aggregated row of `class_stats` in `get_class_distribution`; `total`
is the denominator `class_stats['id'].sum()`. -/
def class_stat (df : List Row) (total : ℚ) (c : String) : ClassDistributionResponse :=
  { class_name := c,
    booking_count := (group Row.class_name c df).length,
    revenue := revenueOf (group Row.class_name c df),
    percentage := round2 (((group Row.class_name c df).length : ℚ) / total * 100) }

/-- `get_class_distribution` applied to its loaded DataFrame.  Note the code
divides by the SUM OF GROUP COUNTS (`class_stats['id'].sum()`), not directly
by `len(df)`. -/
def get_class_distribution (df : List Row) : List ClassDistributionResponse :=
  if df.isEmpty then []
  else
    (groupKeys strLe Row.class_name df).map
      (class_stat df
        (((groupKeys strLe Row.class_name df).map
          (fun c => (group Row.class_name c df).length)).sum : ℕ))

/-- The grouping key `['passenger_name', 'email_address']` of top spenders. -/
def spenderKey (r : Row) : String × String := (r.passenger_name, r.email_address)

def spender_stat (df : List Row) (k : String × String) : TopSpenderEntry :=
  { name := k.1, email := k.2,
    total_bookings := (group spenderKey k df).length,
    total_spent := revenueOf (group spenderKey k df) }

/-- `get_top_spending_passengers`: group, then `nlargest(limit, 'amount_paid')`. -/
def get_top_spending_passengers (df : List Row) (limit : Nat) : List TopSpenderEntry :=
  if df.isEmpty then []
  else
    (insertionSort (fun a b => decide (b.total_spent ≤ a.total_spent))
      ((groupKeys key2Le spenderKey df).map (spender_stat df))).take limit

def journey_stat (df : List Row) (j : String) : JourneyPerformanceEntry :=
  { journey_name := j,
    total_bookings := (group Row.journey_name j df).length,
    total_revenue := revenueOf (group Row.journey_name j df),
    average_booking_value :=
      revenueOf (group Row.journey_name j df) / (group Row.journey_name j df).length }

/-- `get_journey_performance`: group by journey, `nlargest(limit, 'total_bookings')`. -/
def get_journey_performance (df : List Row) (limit : Nat) : List JourneyPerformanceEntry :=
  if df.isEmpty then []
  else
    (insertionSort (fun a b => decide (b.total_bookings ≤ a.total_bookings))
      ((groupKeys strLe Row.journey_name df).map (journey_stat df))).take limit

/-- `get_analytics_dashboard(days)`: `end = today`, `start = today - days`; each
sub-view independently re-runs the loader over the SAME window (the daily-trends
endpoint recomputes `today - days` and `today` itself, yielding the identical
bounds under a fixed `today`). -/
def get_analytics_dashboard (all : List Row) (today : Int) (days : Int) :
    AnalyticsDashboardResponse :=
  { overview := get_booking_statistics
      (get_bookings_df all today (some (today - days)) (some today)),
    daily_trends := get_daily_booking_trends
      (get_bookings_df all today (some (today - days)) (some today)),
    popular_routes := get_popular_routes
      (get_bookings_df all today (some (today - days)) (some today)) 10,
    class_distribution := get_class_distribution
      (get_bookings_df all today (some (today - days)) (some today)) }

/-! ### Concrete rows used to instantiate the theorems -/

/-- A generic joined booking row with the aggregation-relevant columns as
parameters. -/
def mkRow (i : Nat) (d : Int) (amt : ℚ) (o dst cls : String) : Row :=
  { id := i, booking_date := d, amount_paid := amt, ticket_no := 0, seat_no := 0,
    origin_station := o, destination_station := dst, class_name := cls,
    status := "Confirmed", first_name := "John", last_name := "Doe",
    email_address := "jd@example.com", journey_name := "J1" }

/-- Spec scenario: two bookings, both origin "A" / destination "B", amounts
100 and 200, both class "First", after enrichment. -/
def dfPopular : List Row :=
  [mkRow 1 0 100 "A" "B" "First", mkRow 2 0 200 "A" "B" "First"].map enrichRow

/-- Spec scenario: bookings on two distinct dates with amounts [50, 150] and
[100], after enrichment. -/
def dfDaily : List Row :=
  [mkRow 1 1 50 "A" "B" "First", mkRow 2 1 150 "A" "B" "First",
   mkRow 3 2 100 "A" "B" "Economy"].map enrichRow

/-- A booking dated exactly on the dashboard end date (day 100). -/
def rowEnd : Row := mkRow 7 100 250 "A" "B" "First"

/-- A booking inside the range [1, 10]. -/
def rowIn : Row := mkRow 11 5 100 "A" "B" "First"

/-- A booking outside the range [1, 10]. -/
def rowOut : Row := mkRow 12 99 80 "A" "B" "First"

/-! ### Lemmas on the sorting and grouping machinery -/

theorem perm_insertSorted (le : α → α → Bool) (a : α) :
    ∀ l : List α, List.Perm (insertSorted le a l) (a :: l)
  | [] => .refl _
  | b :: l => by
    simp only [insertSorted]
    split
    · exact .refl _
    · exact ((perm_insertSorted le a l).cons b).trans (List.Perm.swap a b l)

theorem perm_insertionSort (le : α → α → Bool) :
    ∀ l : List α, List.Perm (insertionSort le l) l
  | [] => .refl _
  | a :: l => (perm_insertSorted le a (insertionSort le l)).trans
      ((perm_insertionSort le l).cons a)

theorem pairwise_insertSorted (le : α → α → Bool)
    (htrans : ∀ x y z, le x y = true → le y z = true → le x z = true)
    (htot : ∀ x y, le x y = false → le y x = true) (a : α) :
    ∀ l : List α, l.Pairwise (fun x y => le x y = true) →
      (insertSorted le a l).Pairwise (fun x y => le x y = true)
  | [], _ => by simp [insertSorted]
  | b :: l, h => by
    rw [List.pairwise_cons] at h
    by_cases hab : le a b = true
    · simp only [insertSorted, if_pos hab]
      refine List.Pairwise.cons ?_ (List.pairwise_cons.mpr h)
      intro y hy
      rcases List.mem_cons.mp hy with rfl | hyl
      · exact hab
      · exact htrans a b y hab (h.1 y hyl)
    · have hba : le b a = true := htot a b (eq_false_of_ne_true hab)
      simp only [insertSorted, if_neg hab]
      refine List.Pairwise.cons ?_ (pairwise_insertSorted le htrans htot a l h.2)
      intro y hy
      have hmem : y = a ∨ y ∈ l := by
        have := (perm_insertSorted le a l).mem_iff.mp hy
        simpa using this
      rcases hmem with rfl | hyl
      · exact hba
      · exact h.1 y hyl

theorem pairwise_insertionSort (le : α → α → Bool)
    (htrans : ∀ x y z, le x y = true → le y z = true → le x z = true)
    (htot : ∀ x y, le x y = false → le y x = true) :
    ∀ l : List α, (insertionSort le l).Pairwise (fun x y => le x y = true)
  | [] => .nil
  | a :: l =>
    pairwise_insertSorted le htrans htot a _ (pairwise_insertionSort le htrans htot l)

theorem sum_map_ite_of_mem {M κ : Type _} [AddCommMonoid M] [DecidableEq κ] (x : M) :
    ∀ (ks : List κ) (a : κ), ks.Nodup → a ∈ ks →
      (ks.map (fun k => if a = k then x else 0)).sum = x
  | [], a, _, ha => absurd ha (List.not_mem_nil a)
  | k :: ks, a, hnd, ha => by
    rw [List.nodup_cons] at hnd
    rcases List.mem_cons.mp ha with rfl | haks
    · simp only [List.map_cons, List.sum_cons]
      have hzero : (ks.map (fun j => if a = j then x else 0)).sum = 0 := by
        refine List.sum_eq_zero ?_
        intro y hy
        rcases List.mem_map.mp hy with ⟨j, hj, rfl⟩
        have hne : a ≠ j := fun h => hnd.1 (h ▸ hj)
        simp [hne]
      simp [hzero]
    · have hak : a ≠ k := fun h => hnd.1 (h ▸ haks)
      simp only [List.map_cons, List.sum_cons, if_neg hak, zero_add]
      exact sum_map_ite_of_mem x ks a hnd.2 haks

theorem sum_map_add_distrib {M κ : Type _} [AddCommMonoid M] (f g : κ → M) :
    ∀ l : List κ, (l.map (fun x => f x + g x)).sum = (l.map f).sum + (l.map g).sum
  | [] => by simp
  | a :: l => by
    simp only [List.map_cons, List.sum_cons, sum_map_add_distrib f g l]
    abel

theorem sum_filter_partition {M κ α : Type _} [AddCommMonoid M] [DecidableEq κ]
    (key : α → κ) (f : α → M) :
    ∀ (l : List α) (ks : List κ), ks.Nodup → (∀ r ∈ l, key r ∈ ks) →
      (ks.map (fun k => ((l.filter (fun r => key r = k)).map f).sum)).sum = (l.map f).sum
  | [], ks, _, _ => by
    simp only [List.filter_nil, List.map_nil, List.sum_nil]
    refine List.sum_eq_zero ?_
    intro y hy
    rcases List.mem_map.mp hy with ⟨k, _, rfl⟩
    rfl
  | r :: l, ks, hnd, hcov => by
    have hk : key r ∈ ks := hcov r (List.mem_cons_self r l)
    have hstep : ∀ k : κ,
        (((r :: l).filter (fun x => key x = k)).map f).sum
          = (if key r = k then f r else 0)
            + ((l.filter (fun x => key x = k)).map f).sum := by
      intro k
      by_cases h : key r = k
      · simp [List.filter_cons, h]
      · simp [List.filter_cons, h]
    rw [List.map_congr_left (fun k _ => hstep k), sum_map_add_distrib,
      sum_filter_partition key f l ks hnd (fun x hx => hcov x (List.mem_cons_of_mem r hx)),
      sum_map_ite_of_mem (f r) ks (key r) hnd hk]
    simp

theorem sum_map_one_length {α : Type _} : ∀ l : List α, (l.map (fun _ => (1 : ℕ))).sum = l.length
  | [] => rfl
  | a :: l => by simp [sum_map_one_length l, Nat.add_comm]

theorem length_filter_partition {κ α : Type _} [DecidableEq κ] (key : α → κ)
    (l : List α) (ks : List κ) (hnd : ks.Nodup) (hcov : ∀ r ∈ l, key r ∈ ks) :
    (ks.map (fun k => (l.filter (fun r => key r = k)).length)).sum = l.length := by
  have h := sum_filter_partition key (fun _ => (1 : ℕ)) l ks hnd hcov
  rw [sum_map_one_length] at h
  calc (ks.map (fun k => (l.filter (fun r => key r = k)).length)).sum
      = (ks.map (fun k => ((l.filter (fun r => key r = k)).map (fun _ => (1 : ℕ))).sum)).sum :=
        congrArg List.sum (List.map_congr_left (fun k _ => (sum_map_one_length _).symm))
    _ = l.length := h

theorem mem_groupKeys {κ : Type} [DecidableEq κ] (le : κ → κ → Bool) (key : Row → κ)
    (df : List Row) (k : κ) :
    k ∈ groupKeys le key df ↔ ∃ r ∈ df, key r = k := by
  unfold groupKeys
  rw [(perm_insertionSort le _).mem_iff, List.mem_dedup, List.mem_map]

theorem nodup_groupKeys {κ : Type} [DecidableEq κ] (le : κ → κ → Bool) (key : Row → κ)
    (df : List Row) : (groupKeys le key df).Nodup := by
  unfold groupKeys
  exact ((perm_insertionSort le _).nodup_iff).mpr (List.nodup_dedup _)

theorem key_mem_groupKeys {κ : Type} [DecidableEq κ] (le : κ → κ → Bool) (key : Row → κ)
    (df : List Row) : ∀ r ∈ df, key r ∈ groupKeys le key df :=
  fun r hr => (mem_groupKeys le key df (key r)).mpr ⟨r, hr, rfl⟩

theorem groupKeys_revenue {κ : Type} [DecidableEq κ] (le : κ → κ → Bool) (key : Row → κ)
    (df : List Row) :
    ((groupKeys le key df).map (fun k => revenueOf (group key k df))).sum = revenueOf df :=
  sum_filter_partition key Row.amount_paid df _ (nodup_groupKeys le key df)
    (key_mem_groupKeys le key df)

theorem groupKeys_length {κ : Type} [DecidableEq κ] (le : κ → κ → Bool) (key : Row → κ)
    (df : List Row) :
    ((groupKeys le key df).map (fun k => (group key k df).length)).sum = df.length :=
  length_filter_partition key df _ (nodup_groupKeys le key df) (key_mem_groupKeys le key df)

theorem isEmpty_false_of_ne_nil {α : Type _} {l : List α} (h : l ≠ []) : l.isEmpty = false := by
  cases l with
  | nil => exact absurd rfl h
  | cons a l => rfl

/-! ### View-unfolding helpers -/

theorem get_bookings_df_some (all : List Row) (today s e : Int) :
    get_bookings_df all today (some s) (some e)
      = (all.filter (inRange s e)).map enrichRow := rfl

theorem get_booking_statistics_ne_nil {df : List Row} (h : df ≠ []) :
    get_booking_statistics df
      = { total_bookings := df.length,
          total_revenue := revenueOf df,
          average_booking_value := revenueOf df / df.length,
          bookings_by_status := value_counts (df.map Row.status),
          bookings_by_class := value_counts (df.map Row.class_name) } := by
  unfold get_booking_statistics
  rw [isEmpty_false_of_ne_nil h]
  rfl

theorem get_revenue_statistics_ne_nil {df : List Row} (h : df ≠ []) :
    get_revenue_statistics df
      = { total_revenue := revenueOf df,
          revenue_by_date := (groupKeys intLe Row.booking_date df).map
            (fun d => (d, revenueOf (group Row.booking_date d df))),
          revenue_by_class := (groupKeys strLe Row.class_name df).map
            (fun c => (c, revenueOf (group Row.class_name c df))),
          revenue_by_route :=
            (insertionSort (fun a b => decide (b.2 ≤ a.2))
              ((groupKeys strLe Row.route df).map
                (fun rt => (rt, revenueOf (group Row.route rt df))))).take 10 } := by
  unfold get_revenue_statistics
  rw [isEmpty_false_of_ne_nil h]
  rfl

theorem get_popular_routes_ne_nil {df : List Row} (h : df ≠ []) (limit : Nat) :
    get_popular_routes df limit
      = (insertionSort (fun a b => decide (b.booking_count ≤ a.booking_count))
          ((groupKeys key3Le routeKey df).map (route_stat df))).take limit := by
  unfold get_popular_routes
  rw [isEmpty_false_of_ne_nil h]
  rfl

theorem get_daily_booking_trends_ne_nil {df : List Row} (h : df ≠ []) :
    get_daily_booking_trends df
      = (groupKeys intLe Row.booking_date df).map (trend_stat df) := by
  unfold get_daily_booking_trends
  rw [isEmpty_false_of_ne_nil h]
  rfl

theorem get_class_distribution_ne_nil {df : List Row} (h : df ≠ []) :
    get_class_distribution df
      = (groupKeys strLe Row.class_name df).map
          (class_stat df
            (((groupKeys strLe Row.class_name df).map
              (fun c => (group Row.class_name c df).length)).sum : ℕ)) := by
  unfold get_class_distribution
  rw [isEmpty_false_of_ne_nil h]
  rfl

theorem daily_trends_dates {df : List Row} (h : df ≠ []) :
    (get_daily_booking_trends df).map DailyBookingTrendResponse.date
      = groupKeys intLe Row.booking_date df := by
  rw [get_daily_booking_trends_ne_nil h, List.map_map]
  show (groupKeys intLe Row.booking_date df).map id = groupKeys intLe Row.booking_date df
  exact List.map_id _

theorem class_distribution_names {df : List Row} (h : df ≠ []) :
    (get_class_distribution df).map ClassDistributionResponse.class_name
      = groupKeys strLe Row.class_name df := by
  rw [get_class_distribution_ne_nil h, List.map_map]
  show (groupKeys strLe Row.class_name df).map id = groupKeys strLe Row.class_name df
  exact List.map_id _

theorem natDesc_trans (f : α → ℕ) : ∀ x y z : α,
    decide (f y ≤ f x) = true → decide (f z ≤ f y) = true →
      decide (f z ≤ f x) = true :=
  fun _ _ _ h1 h2 => decide_eq_true (le_trans (of_decide_eq_true h2) (of_decide_eq_true h1))

theorem natDesc_total (f : α → ℕ) : ∀ x y : α,
    decide (f y ≤ f x) = false → decide (f x ≤ f y) = true :=
  fun _ _ h => decide_eq_true (le_of_not_le (of_decide_eq_false h))

theorem intLe_trans : ∀ x y z : Int,
    intLe x y = true → intLe y z = true → intLe x z = true :=
  fun _ _ _ h1 h2 => decide_eq_true (le_trans (of_decide_eq_true h1) (of_decide_eq_true h2))

theorem intLe_total : ∀ x y : Int, intLe x y = false → intLe y x = true :=
  fun _ _ h => decide_eq_true (le_of_not_le (of_decide_eq_false h))

/-! ### Claim theorems -/

/-- C3: for the empty row set, booking statistics returns the all-zero record
with empty status/class mappings, and every list-shaped view (revenue
breakdowns, popular routes, daily trends, class distribution, top spenders,
journey performance) returns an empty list. -/
theorem empty_input_views :
    get_booking_statistics []
      = { total_bookings := 0, total_revenue := 0, average_booking_value := 0,
          bookings_by_status := [], bookings_by_class := [] } ∧
    get_revenue_statistics []
      = { total_revenue := 0, revenue_by_date := [],
          revenue_by_class := [], revenue_by_route := [] } ∧
    (∀ limit, get_popular_routes [] limit = []) ∧
    get_daily_booking_trends [] = [] ∧
    get_class_distribution [] = [] ∧
    (∀ limit, get_top_spending_passengers [] limit = []) ∧
    (∀ limit, get_journey_performance [] limit = []) :=
  ⟨rfl, rfl, fun _ => rfl, rfl, rfl, fun _ => rfl, fun _ => rfl⟩

/-- C9: when exactly one of the two bounds is supplied to the loader, the
supplied bound is ignored and BOTH bounds are replaced by the default
trailing-30-day window (the guard is `if not start_date or not end_date`). -/
theorem loader_partial_bounds_ignored (all : List Row) (today s e : Int) :
    get_bookings_df all today (some s) none = get_bookings_df all today none none ∧
    get_bookings_df all today none (some e) = get_bookings_df all today none none ∧
    get_bookings_df all today none none
      = (all.filter (inRange (today - 30) today)).map enrichRow :=
  ⟨rfl, rfl, rfl⟩

/-- C6: with both bounds supplied, the loader returns exactly the (enriched)
records whose booking_date lies in the inclusive range [start, end], and an
empty list (not an error) when no booking falls in range. -/
theorem loader_inclusive_range (all : List Row) (today s e : Int) :
    (∀ x, x ∈ get_bookings_df all today (some s) (some e)
      ↔ ∃ r, r ∈ all ∧ s ≤ r.booking_date ∧ r.booking_date ≤ e ∧ x = enrichRow r) ∧
    ((∀ r, r ∈ all → r.booking_date < s ∨ e < r.booking_date) →
      get_bookings_df all today (some s) (some e) = []) := by
  constructor
  · intro x
    rw [get_bookings_df_some]
    simp only [List.mem_map, List.mem_filter, inRange, Bool.and_eq_true, decide_eq_true_eq]
    constructor
    · rintro ⟨r, ⟨hr, h1, h2⟩, rfl⟩
      exact ⟨r, hr, h1, h2, rfl⟩
    · rintro ⟨r, hr, h1, h2, rfl⟩
      exact ⟨r, ⟨hr, h1, h2⟩, rfl⟩
  · intro h
    rw [get_bookings_df_some]
    have hnil : all.filter (inRange s e) = [] := by
      rw [List.filter_eq_nil_iff]
      intro r hr
      simp only [inRange, Bool.and_eq_true, decide_eq_true_eq, not_and]
      intro h1 h2
      rcases h r hr with h3 | h3 <;> omega
    rw [hnil]
    rfl

/-- C6 witness: in the window [1, 10], a booking on day 5 is loaded and a
row set whose only booking is on day 99 yields the empty list. -/
theorem loader_inclusive_range_witness :
    enrichRow rowIn ∈ get_bookings_df [rowIn, rowOut] 50 (some 1) (some 10) ∧
    get_bookings_df [rowOut] 50 (some 1) (some 10) = [] :=
  ⟨((loader_inclusive_range [rowIn, rowOut] 50 1 10).1 (enrichRow rowIn)).mpr
      ⟨rowIn, by decide, by decide, by decide, rfl⟩,
    (loader_inclusive_range [rowOut] 50 1 10).2 (by decide)⟩

/-- C4: the total_revenue of the booking-statistics view equals the sum of the
per-class revenues of the revenue-statistics view, on every row set. -/
theorem total_revenue_matches_class_breakdown (df : List Row) :
    (get_booking_statistics df).total_revenue
      = ((get_revenue_statistics df).revenue_by_class.map Prod.snd).sum := by
  by_cases h : df = []
  · subst h; rfl
  · rw [get_booking_statistics_ne_nil h, get_revenue_statistics_ne_nil h]
    simp only [List.map_map]
    exact (groupKeys_revenue strLe Row.class_name df).symm

/-- C8: the enricher is a pure per-row function — it sets `passenger_name` to
first name, a space, last name, and removes/adds no rows — but the route
separator the code produces is the mojibake " â†’ " (U+00E2 U+2020 U+2019,
the UTF-8 bytes of "→" mis-decoded), not " → " (U+2192) as the spec states:
at the failing input (origin "A", destination "B") the code yields
"A â†’ B" ≠ "A → B". -/
theorem enrich_fields :
    (∀ r : Row, (enrichRow r).route
      = r.origin_station ++ " â†’ " ++ r.destination_station) ∧
    (∀ r : Row, (enrichRow r).passenger_name = r.first_name ++ " " ++ r.last_name) ∧
    (∀ rows : List Row, (rows.map enrichRow).length = rows.length) ∧
    (enrichRow (mkRow 1 0 100 "A" "B" "First")).route = "A â†’ B" ∧
    (enrichRow (mkRow 1 0 100 "A" "B" "First")).route ≠ "A → B" :=
  ⟨fun _ => rfl, fun _ => rfl, fun rows => by simp, by decide, by decide⟩

/-- C7 counterexample: the dashboard window is the INCLUSIVE range
[today - days, today] (SQL `BETWEEN`), not the half-open [start, end): with a
single booking dated exactly `today` (= end_date = day 100) and days = 30, the
composite's overview counts it and its date appears in daily trends, so it is
not excluded from the sub-views' aggregates as the claim states. -/
theorem dashboard_end_date_cex :
    (get_analytics_dashboard [rowEnd] 100 30).overview.total_bookings = 1 ∧
    (get_analytics_dashboard [rowEnd] 100 30).daily_trends.map
      DailyBookingTrendResponse.date = [100] := by
  constructor
  · set_option maxRecDepth 100000 in with_unfolding_all rfl
  · set_option maxRecDepth 100000 in with_unfolding_all rfl

/-- C7 (amended): the Dashboard Composer computes the shared window as the
INCLUSIVE range [today - days, today]; a booking dated exactly end_date is
included in the row set all four sub-views aggregate: it is counted in the
overview totals, its date appears in daily trends, and its class appears in
the class distribution. -/
theorem dashboard_inclusive_window (all : List Row) (today days : Int) (r : Row)
    (h1 : 1 ≤ days) (h2 : days ≤ 365) (hr : r ∈ all) (hd : r.booking_date = today) :
    enrichRow r ∈ get_bookings_df all today (some (today - days)) (some today) ∧
    0 < (get_analytics_dashboard all today days).overview.total_bookings ∧
    today ∈ (get_analytics_dashboard all today days).daily_trends.map
      DailyBookingTrendResponse.date ∧
    r.class_name ∈ (get_analytics_dashboard all today days).class_distribution.map
      ClassDistributionResponse.class_name := by
  have hmem : enrichRow r ∈ get_bookings_df all today (some (today - days)) (some today) := by
    rw [get_bookings_df_some]
    refine List.mem_map_of_mem _ ?_
    rw [List.mem_filter]
    refine ⟨hr, ?_⟩
    simp only [inRange, Bool.and_eq_true, decide_eq_true_eq, hd]
    omega
  have hne : get_bookings_df all today (some (today - days)) (some today) ≠ [] :=
    List.ne_nil_of_mem hmem
  refine ⟨hmem, ?_, ?_, ?_⟩
  · show 0 < (get_booking_statistics _).total_bookings
    rw [get_booking_statistics_ne_nil hne]
    exact List.length_pos.mpr hne
  · show today ∈ (get_daily_booking_trends _).map DailyBookingTrendResponse.date
    rw [daily_trends_dates hne]
    exact (mem_groupKeys _ _ _ _).mpr ⟨enrichRow r, hmem, hd⟩
  · show r.class_name ∈ (get_class_distribution _).map ClassDistributionResponse.class_name
    rw [class_distribution_names hne]
    exact (mem_groupKeys _ _ _ _).mpr ⟨enrichRow r, hmem, rfl⟩

/-- C7 witness: the amended statement instantiated at a single booking dated
exactly on the end date (day 100), with a 30-day window. -/
theorem dashboard_inclusive_window_witness :
    enrichRow rowEnd ∈ get_bookings_df [rowEnd] 100 (some (100 - 30)) (some 100) ∧
    0 < (get_analytics_dashboard [rowEnd] 100 30).overview.total_bookings ∧
    (100 : Int) ∈ (get_analytics_dashboard [rowEnd] 100 30).daily_trends.map
      DailyBookingTrendResponse.date ∧
    rowEnd.class_name ∈ (get_analytics_dashboard [rowEnd] 100 30).class_distribution.map
      ClassDistributionResponse.class_name :=
  dashboard_inclusive_window [rowEnd] 100 30 rowEnd (by decide) (by decide)
    (List.mem_singleton.mpr rfl) rfl

/-- C5: on a non-empty row set, daily trends has exactly one entry per distinct
booking date of the row set, in strictly increasing date order, and each
entry's booking_count and revenue are the count and amount-sum of that date's
rows. -/
theorem daily_trends_spec (df : List Row) (h : df ≠ []) :
    ((get_daily_booking_trends df).map DailyBookingTrendResponse.date).Nodup ∧
    (∀ d : Int, d ∈ (get_daily_booking_trends df).map DailyBookingTrendResponse.date
      ↔ d ∈ df.map Row.booking_date) ∧
    (get_daily_booking_trends df).Pairwise (fun a b => a.date < b.date) ∧
    (∀ e ∈ get_daily_booking_trends df,
      e.booking_count = (df.filter (fun r => r.booking_date = e.date)).length ∧
      e.revenue = revenueOf (df.filter (fun r => r.booking_date = e.date))) := by
  have hmapdate := daily_trends_dates h
  rw [get_daily_booking_trends_ne_nil h] at hmapdate ⊢
  refine ⟨?_, ?_, ?_, ?_⟩
  · rw [hmapdate]
    exact nodup_groupKeys _ _ _
  · intro d
    rw [hmapdate, mem_groupKeys]
    exact Iff.symm List.mem_map
  · have hle := pairwise_insertionSort intLe intLe_trans intLe_total
      ((df.map Row.booking_date).dedup)
    have hnd := nodup_groupKeys intLe Row.booking_date df
    have hlt : (groupKeys intLe Row.booking_date df).Pairwise (· < ·) :=
      (hle.and hnd).imp (fun hab => lt_of_le_of_ne (of_decide_eq_true hab.1) hab.2)
    rw [List.pairwise_map]
    exact hlt
  · intro e he
    obtain ⟨k, hk, rfl⟩ := List.mem_map.mp he
    exact ⟨rfl, rfl⟩

/-- C5 witness: the spec scenario — three bookings on two distinct dates with
amounts [50, 150] and [100] — has distinct, strictly increasing trend dates. -/
theorem daily_trends_spec_witness :
    ((get_daily_booking_trends dfDaily).map DailyBookingTrendResponse.date).Nodup ∧
    (get_daily_booking_trends dfDaily).Pairwise (fun a b => a.date < b.date) :=
  ⟨(daily_trends_spec dfDaily (by decide)).1,
   (daily_trends_spec dfDaily (by decide)).2.2.1⟩

theorem round2_err (q : ℚ) : |round2 q - q| ≤ 1 / 200 := by
  have h : |q * 100 - round (q * 100)| ≤ 1 / 2 := abs_sub_round (q * 100)
  have heq : round2 q - q = -((q * 100 - ((round (q * 100) : ℤ) : ℚ)) / 100) := by
    unfold round2
    ring
  rw [heq, abs_neg, abs_div, abs_of_pos (show (0 : ℚ) < 100 by norm_num)]
  calc |q * 100 - ((round (q * 100) : ℤ) : ℚ)| / 100
      ≤ (1 / 2) / 100 := (div_le_div_iff_of_pos_right (by norm_num)).mpr h
    _ = 1 / 200 := by norm_num

theorem sum_round2_close : ∀ l : List ℚ, |(l.map round2).sum - l.sum| ≤ (l.length : ℚ) / 200
  | [] => by simp
  | a :: l => by
    simp only [List.map_cons, List.sum_cons, List.length_cons]
    have h1 := round2_err a
    have h2 := sum_round2_close l
    have e : round2 a + (l.map round2).sum - (a + l.sum)
        = (round2 a - a) + ((l.map round2).sum - l.sum) := by ring
    calc |round2 a + (l.map round2).sum - (a + l.sum)|
        = |(round2 a - a) + ((l.map round2).sum - l.sum)| := by rw [e]
      _ ≤ |round2 a - a| + |(l.map round2).sum - l.sum| := abs_add _ _
      _ ≤ 1 / 200 + (l.length : ℚ) / 200 := add_le_add h1 h2
      _ = ((l.length + 1 : ℕ) : ℚ) / 200 := by push_cast; ring

/-- C2: on a non-empty row set, class distribution has one entry per distinct
class name; each entry's booking_count is the class's row count and its
percentage is count / total row count × 100 rounded to 2 decimals; the counts
sum to the total row count; and the percentages sum to 100 up to rounding
tolerance (at most 1/200 per group). -/
theorem class_distribution_spec (df : List Row) (h : df ≠ []) :
    ((get_class_distribution df).map ClassDistributionResponse.class_name).Nodup ∧
    (∀ c, c ∈ (get_class_distribution df).map ClassDistributionResponse.class_name
      ↔ c ∈ df.map Row.class_name) ∧
    (∀ e ∈ get_class_distribution df,
      e.booking_count = (df.filter (fun r => r.class_name = e.class_name)).length ∧
      e.percentage = round2 ((e.booking_count : ℚ) / (df.length : ℚ) * 100)) ∧
    ((get_class_distribution df).map ClassDistributionResponse.booking_count).sum
      = df.length ∧
    |((get_class_distribution df).map ClassDistributionResponse.percentage).sum - 100|
      ≤ ((get_class_distribution df).length : ℚ) / 200 := by
  have hN := groupKeys_length strLe Row.class_name df
  have hres := get_class_distribution_ne_nil h
  have hn0 : (df.length : ℚ) ≠ 0 :=
    Nat.cast_ne_zero.mpr (fun h0 => h (List.length_eq_zero.mp h0))
  refine ⟨?_, ?_, ?_, ?_, ?_⟩
  · rw [class_distribution_names h]
    exact nodup_groupKeys _ _ _
  · intro c
    rw [class_distribution_names h, mem_groupKeys]
    exact Iff.symm List.mem_map
  · intro e he
    rw [hres] at he
    obtain ⟨c, hc, rfl⟩ := List.mem_map.mp he
    refine ⟨rfl, ?_⟩
    show round2 _ = round2 _
    rw [hN]
    rfl
  · rw [hres, List.map_map]
    exact hN
  · rw [hres, List.map_map, List.length_map, hN]
    have hcompq : (ClassDistributionResponse.percentage
          ∘ class_stat df ((df.length : ℕ) : ℚ))
        = fun c => round2 (((group Row.class_name c df).length : ℚ)
            / (df.length : ℚ) * 100) := rfl
    have hsplit : (groupKeys strLe Row.class_name df).map
          (fun c => round2 (((group Row.class_name c df).length : ℚ)
            / (df.length : ℚ) * 100))
        = ((groupKeys strLe Row.class_name df).map
            (fun c => ((group Row.class_name c df).length : ℚ)
              / (df.length : ℚ) * 100)).map round2 := by
      rw [List.map_map]
      rfl
    rw [hcompq, hsplit]
    have hqsum : ((groupKeys strLe Row.class_name df).map
        (fun c => ((group Row.class_name c df).length : ℚ)
          / (df.length : ℚ) * 100)).sum = 100 := by
      have hstep : ∀ c, ((group Row.class_name c df).length : ℚ)
          / (df.length : ℚ) * 100
            = ((group Row.class_name c df).length : ℚ) * (100 / (df.length : ℚ)) := by
        intro c
        rw [div_mul_eq_mul_div, mul_div_assoc]
      rw [List.map_congr_left (fun c _ => hstep c), List.sum_map_mul_right]
      have hcast : ((groupKeys strLe Row.class_name df).map
          (fun c => ((group Row.class_name c df).length : ℚ))).sum
            = ((((groupKeys strLe Row.class_name df).map
              (fun c => (group Row.class_name c df).length)).sum : ℕ) : ℚ) := by
        rw [Nat.cast_list_sum, List.map_map]
        rfl
      rw [hcast, hN]
      field_simp
    calc |(((groupKeys strLe Row.class_name df).map
          (fun c => ((group Row.class_name c df).length : ℚ)
            / (df.length : ℚ) * 100)).map round2).sum - 100|
        = |(((groupKeys strLe Row.class_name df).map
            (fun c => ((group Row.class_name c df).length : ℚ)
              / (df.length : ℚ) * 100)).map round2).sum
          - ((groupKeys strLe Row.class_name df).map
            (fun c => ((group Row.class_name c df).length : ℚ)
              / (df.length : ℚ) * 100)).sum| := by rw [hqsum]
      _ ≤ (((groupKeys strLe Row.class_name df).map
            (fun c => ((group Row.class_name c df).length : ℚ)
              / (df.length : ℚ) * 100)).length : ℚ) / 200 := sum_round2_close _
      _ = ((groupKeys strLe Row.class_name df).length : ℚ) / 200 := by
            rw [List.length_map]

/-- C2 witness: the three-booking scenario (classes "First", "First",
"Economy") instantiates the class-distribution properties. -/
theorem class_distribution_spec_witness :
    ((get_class_distribution dfDaily).map ClassDistributionResponse.class_name).Nodup ∧
    ((get_class_distribution dfDaily).map ClassDistributionResponse.booking_count).sum
      = dfDaily.length ∧
    |((get_class_distribution dfDaily).map ClassDistributionResponse.percentage).sum - 100|
      ≤ ((get_class_distribution dfDaily).length : ℚ) / 200 :=
  ⟨(class_distribution_spec dfDaily (by decide)).1,
   (class_distribution_spec dfDaily (by decide)).2.2.2.1,
   (class_distribution_spec dfDaily (by decide)).2.2.2.2⟩

theorem mem_popular_routes {df : List Row} {limit : Nat} {e : PopularRouteResponse}
    (he : e ∈ get_popular_routes df limit) :
    ∃ k ∈ groupKeys key3Le routeKey df, e = route_stat df k ∧ group routeKey k df ≠ [] := by
  by_cases h : df = []
  · subst h
    simp [get_popular_routes] at he
  · rw [get_popular_routes_ne_nil h limit] at he
    have h1 : e ∈ insertionSort (fun a b => decide (b.booking_count ≤ a.booking_count))
        ((groupKeys key3Le routeKey df).map (route_stat df)) := List.mem_of_mem_take he
    have h2 : e ∈ (groupKeys key3Le routeKey df).map (route_stat df) :=
      (perm_insertionSort _ _).mem_iff.mp h1
    obtain ⟨k, hk, rfl⟩ := List.mem_map.mp h2
    obtain ⟨r, hr, hkr⟩ := (mem_groupKeys _ _ _ _).mp hk
    refine ⟨k, hk, rfl, ?_⟩
    refine List.ne_nil_of_mem (a := r) ?_
    unfold group
    rw [List.mem_filter]
    exact ⟨hr, decide_eq_true hkr⟩

theorem pair_filter_eq_group (df : List Row)
    (hroute : ∀ r ∈ df, r.route = r.origin_station ++ routeSep ++ r.destination_station)
    (k1 k2 k3 : String) (hk : (k1, k2, k3) ∈ groupKeys key3Le routeKey df) :
    df.filter (fun x => x.origin_station = k1 ∧ x.destination_station = k2)
      = group routeKey (k1, k2, k3) df := by
  obtain ⟨r0, hr0, hk0⟩ := (mem_groupKeys _ _ _ _).mp hk
  unfold routeKey at hk0
  rw [Prod.mk.injEq, Prod.mk.injEq] at hk0
  unfold group
  refine List.filter_congr ?_
  intro r hr
  rw [decide_eq_decide]
  constructor
  · rintro ⟨ho, hd⟩
    show routeKey r = (k1, k2, k3)
    unfold routeKey
    have hr3 : k3 = k1 ++ routeSep ++ k2 := by
      rw [← hk0.1, ← hk0.2.1, ← hk0.2.2]
      exact hroute r0 hr0
    rw [Prod.mk.injEq, Prod.mk.injEq]
    refine ⟨ho, hd, ?_⟩
    rw [hroute r hr, ho, hd, hr3]
  · intro hkey
    have hkey2 : routeKey r = (k1, k2, k3) := hkey
    unfold routeKey at hkey2
    rw [Prod.mk.injEq, Prod.mk.injEq] at hkey2
    exact ⟨hkey2.1, hkey2.2.1⟩

/-- The concrete result of the spec's two-booking popular-routes scenario. -/
theorem popular_routes_scenario :
    get_popular_routes dfPopular 10
      = [{ origin := "A", destination := "B", booking_count := 2,
           total_revenue := 300, average_price := 150 }] := by
  set_option maxRecDepth 1000000 in with_unfolding_all rfl

/-- C1: on a non-empty (enriched) row set with a limit in [1, 50], popular
routes groups rows by (origin, destination), reports each group's booking
count, amount sum and amount mean, returns at most `limit` entries ranked
descending by booking count, and every omitted group's count is at most every
returned entry's count; in particular, the two-booking "A"/"B" scenario with
amounts 100 and 200 yields exactly one entry with count 2, total 300,
average 150. -/
theorem popular_routes_spec :
    (∀ (df : List Row) (limit : Nat), df ≠ [] → 1 ≤ limit → limit ≤ 50 →
      (∀ r ∈ df, r.route = r.origin_station ++ routeSep ++ r.destination_station) →
      (get_popular_routes df limit).length ≤ limit ∧
      (∀ e ∈ get_popular_routes df limit,
        e.booking_count = (df.filter (fun x => x.origin_station = e.origin
            ∧ x.destination_station = e.destination)).length ∧
        e.total_revenue = revenueOf (df.filter (fun x => x.origin_station = e.origin
            ∧ x.destination_station = e.destination)) ∧
        e.average_price = e.total_revenue / (e.booking_count : ℚ)) ∧
      (get_popular_routes df limit).Pairwise
        (fun a b => b.booking_count ≤ a.booking_count) ∧
      (∀ r ∈ df,
        (∀ e ∈ get_popular_routes df limit,
          ¬(e.origin = r.origin_station ∧ e.destination = r.destination_station)) →
        ∀ e ∈ get_popular_routes df limit,
          (df.filter (fun x => x.origin_station = r.origin_station
            ∧ x.destination_station = r.destination_station)).length ≤ e.booking_count)) ∧
    get_popular_routes dfPopular 10
      = [{ origin := "A", destination := "B", booking_count := 2,
           total_revenue := 300, average_price := 150 }] := by
  refine ⟨?_, popular_routes_scenario⟩
  intro df limit hne h1 h50 hroute
  have hres := get_popular_routes_ne_nil hne limit
  refine ⟨?_, ?_, ?_, ?_⟩
  · rw [hres, List.length_take]
    exact min_le_left _ _
  · intro e he
    obtain ⟨k, hk, rfl, -⟩ := mem_popular_routes he
    obtain ⟨k1, k2, k3⟩ := k
    have hpf := pair_filter_eq_group df hroute k1 k2 k3 hk
    refine ⟨?_, ?_, rfl⟩
    · show (group routeKey (k1, k2, k3) df).length
        = (df.filter (fun x => x.origin_station = k1 ∧ x.destination_station = k2)).length
      rw [hpf]
    · show revenueOf (group routeKey (k1, k2, k3) df)
        = revenueOf (df.filter (fun x => x.origin_station = k1 ∧ x.destination_station = k2))
      rw [hpf]
  · rw [hres]
    have hpw := pairwise_insertionSort
      (fun a b => decide (b.booking_count ≤ a.booking_count))
      (natDesc_trans PopularRouteResponse.booking_count)
      (natDesc_total PopularRouteResponse.booking_count)
      ((groupKeys key3Le routeKey df).map (route_stat df))
    have hpw2 : (insertionSort (fun a b => decide (b.booking_count ≤ a.booking_count))
        ((groupKeys key3Le routeKey df).map (route_stat df))).Pairwise
          (fun a b => b.booking_count ≤ a.booking_count) :=
      hpw.imp (fun hab => of_decide_eq_true hab)
    exact List.Pairwise.sublist (List.take_sublist _ _) hpw2
  · intro r hr hnone e he
    have hkr : (r.origin_station, r.destination_station, r.route)
        ∈ groupKeys key3Le routeKey df := key_mem_groupKeys _ _ _ r hr
    have hsstats : route_stat df (r.origin_station, r.destination_station, r.route)
        ∈ (groupKeys key3Le routeKey df).map (route_stat df) :=
      List.mem_map_of_mem _ hkr
    have hsorted : route_stat df (r.origin_station, r.destination_station, r.route)
        ∈ insertionSort (fun a b => decide (b.booking_count ≤ a.booking_count))
          ((groupKeys key3Le routeKey df).map (route_stat df)) :=
      (perm_insertionSort _ _).mem_iff.mpr hsstats
    have hsnot : route_stat df (r.origin_station, r.destination_station, r.route)
        ∉ (insertionSort (fun a b => decide (b.booking_count ≤ a.booking_count))
          ((groupKeys key3Le routeKey df).map (route_stat df))).take limit := by
      intro hmem
      exact hnone _ (by rw [hres]; exact hmem) ⟨rfl, rfl⟩
    have hsdrop : route_stat df (r.origin_station, r.destination_station, r.route)
        ∈ (insertionSort (fun a b => decide (b.booking_count ≤ a.booking_count))
          ((groupKeys key3Le routeKey df).map (route_stat df))).drop limit := by
      have hsplit := List.take_append_drop limit
        (insertionSort (fun a b => decide (b.booking_count ≤ a.booking_count))
          ((groupKeys key3Le routeKey df).map (route_stat df)))
      rcases List.mem_append.mp (by rw [hsplit]; exact hsorted) with hmem | hmem
      · exact absurd hmem hsnot
      · exact hmem
    have hpw := pairwise_insertionSort
      (fun a b => decide (b.booking_count ≤ a.booking_count))
      (natDesc_trans PopularRouteResponse.booking_count)
      (natDesc_total PopularRouteResponse.booking_count)
      ((groupKeys key3Le routeKey df).map (route_stat df))
    have hpw2 : ((insertionSort (fun a b => decide (b.booking_count ≤ a.booking_count))
          ((groupKeys key3Le routeKey df).map (route_stat df))).take limit
        ++ (insertionSort (fun a b => decide (b.booking_count ≤ a.booking_count))
          ((groupKeys key3Le routeKey df).map (route_stat df))).drop limit).Pairwise
        (fun a b => decide (b.booking_count ≤ a.booking_count) = true) := by
      rw [List.take_append_drop]
      exact hpw
    obtain ⟨-, -, hcross⟩ := List.pairwise_append.mp hpw2
    have hle := hcross e (by rw [hres] at he; exact he) _ hsdrop
    have hcount := of_decide_eq_true hle
    have hpf := pair_filter_eq_group df hroute
      r.origin_station r.destination_station r.route hkr
    calc (df.filter (fun x => x.origin_station = r.origin_station
          ∧ x.destination_station = r.destination_station)).length
        = (group routeKey (r.origin_station, r.destination_station, r.route) df).length := by
          rw [hpf]
      _ ≤ e.booking_count := hcount

/-- C1 witness: the general popular-routes properties instantiated on the
two-booking scenario with limit 10. -/
theorem popular_routes_spec_witness :
    (get_popular_routes dfPopular 10).length ≤ 10 ∧
    (get_popular_routes dfPopular 10).Pairwise
      (fun a b => b.booking_count ≤ a.booking_count) :=
  ⟨(popular_routes_spec.1 dfPopular 10 (by decide) (by decide) (by decide)
      (by decide)).1,
   (popular_routes_spec.1 dfPopular 10 (by decide) (by decide) (by decide)
      (by decide)).2.2.1⟩

/-- C10: every returned popular-routes entry satisfies
average_price × booking_count = total_revenue exactly over ℚ, the mean being
the group's amount sum divided by its count. -/
theorem popular_routes_avg_times_count (df : List Row) (limit : Nat)
    (e : PopularRouteResponse) (he : e ∈ get_popular_routes df limit) :
    e.average_price * (e.booking_count : ℚ) = e.total_revenue := by
  obtain ⟨k, hk, rfl, hg⟩ := mem_popular_routes he
  have hlen : ((group routeKey k df).length : ℚ) ≠ 0 :=
    Nat.cast_ne_zero.mpr (fun h0 => hg (List.length_eq_zero.mp h0))
  show revenueOf (group routeKey k df) / ((group routeKey k df).length : ℚ)
      * ((group routeKey k df).length : ℚ) = revenueOf (group routeKey k df)
  exact div_mul_cancel₀ _ hlen

/-- C10 witness: the identity holds at the single entry returned for the
two-booking scenario (150 × 2 = 300). -/
theorem popular_routes_avg_times_count_witness :
    ({ origin := "A", destination := "B", booking_count := 2, total_revenue := 300, average_price := 150 } : PopularRouteResponse).average_price * (({ origin := "A", destination := "B", booking_count := 2, total_revenue := 300, average_price := 150 } : PopularRouteResponse).booking_count : ℚ) = ({ origin := "A", destination := "B", booking_count := 2, total_revenue := 300, average_price := 150 } : PopularRouteResponse).total_revenue :=
  popular_routes_avg_times_count dfPopular 10 _
    (by rw [popular_routes_scenario]; exact List.mem_singleton.mpr rfl)

/-- C3 witness: the universally quantified empty-case clauses instantiated at
concrete limits. -/
theorem empty_input_views_witness :
    get_popular_routes [] 10 = [] ∧ get_top_spending_passengers [] 5 = [] ∧
    get_journey_performance [] 5 = [] :=
  ⟨empty_input_views.2.2.1 10, empty_input_views.2.2.2.2.2.1 5,
   empty_input_views.2.2.2.2.2.2 5⟩

/-- C9 witness: supplying only a start bound yields the same result as
supplying no bounds at all. -/
theorem loader_partial_bounds_ignored_witness :
    get_bookings_df [rowIn] 50 (some 1) none = get_bookings_df [rowIn] 50 none none :=
  (loader_partial_bounds_ignored [rowIn] 50 1 99).1

/-- C4 witness: the revenue consistency instantiated on the three-booking
row set. -/
theorem total_revenue_matches_class_breakdown_witness :
    (get_booking_statistics dfDaily).total_revenue
      = ((get_revenue_statistics dfDaily).revenue_by_class.map Prod.snd).sum :=
  total_revenue_matches_class_breakdown dfDaily

/-- C8 witness: the enricher evaluated at a concrete row. -/
theorem enrich_fields_witness :
    (enrichRow (mkRow 2 0 50 "X" "Y" "Economy")).passenger_name = "John" ++ " " ++ "Doe" :=
  enrich_fields.2.1 (mkRow 2 0 50 "X" "Y" "Economy")

end TrainBooking
